import Mathlib

/-!
Shallow embedding of the yadsec configuration loader (package `yadsec`,
file `yadsec.go`) and proofs about its resolution algorithm.

The process environment is modelled as an association list from variable
names to values; `os.LookupEnv` distinguishes "unset" from "set to the
empty string", which the model keeps via `Option String`.  The filesystem
passed to the resolver (`fs.FS`, in the tests an `fstest.MapFS`) is
modelled as an association list from (slash-free-rooted) paths to raw file
contents.  Functions are named after the Go functions they embed.
-/

/-- Process environment: association list of variable name, value pairs. -/
abbrev Env := List (String × String)

/-- Filesystem: association list of path, content pairs (an `fstest.MapFS`). -/
abbrev FS := List (String × String)

/-- First-match lookup in an association list (both `os.LookupEnv` and
opening a file in a `MapFS` reduce to this). -/
def lookupStr : List (String × String) → String → Option String
  | [], _ => none
  | (k, v) :: rest, key => if k = key then some v else lookupStr rest key

/-- Embeds `os.Unsetenv key`. -/
def unsetEnv : Env → String → Env
  | [], _ => []
  | (k, v) :: rest, key =>
      if k = key then unsetEnv rest key else (k, v) :: unsetEnv rest key

/-- Embeds `os.Setenv key value` (replace any old binding for `key`). -/
def setEnv (e : Env) (key value : String) : Env :=
  unsetEnv e key ++ [(key, value)]

/-- Embeds `isEnvSet` from yadsec.go: `_, set := os.LookupEnv(key); return set`. -/
def isEnvSet (e : Env) (key : String) : Bool :=
  (lookupStr e key).isSome

/-- Embeds `os.Getenv key`: the value when set, `""` when unset. -/
def getEnv (e : Env) (key : String) : String :=
  (lookupStr e key).getD ""

/-- Embeds `fileEnvvar` from yadsec.go (`fileVarSuffix = "__FILE"`). -/
def fileEnvvar (key : String) : String :=
  key ++ "__FILE"

/-- Embeds `secretEnvvar` from yadsec.go (`secretVarSuffix = "__SECRET"`). -/
def secretEnvvar (key : String) : String :=
  key ++ "__SECRET"

/-- Loop body of `mutuallyExclusive` from yadsec.go: count the `true`s,
returning `false` as soon as the count exceeds one. -/
def mutuallyExclusiveAux : Nat → List Bool → Bool
  | count, [] => count ≤ 1
  | count, v :: rest =>
      let count1 := if v then count + 1 else count
      if count1 > 1 then false else mutuallyExclusiveAux count1 rest

/-- Embeds `mutuallyExclusive(values ...bool)` from yadsec.go. -/
def mutuallyExclusive (values : List Bool) : Bool :=
  mutuallyExclusiveAux 0 values

/-- Embeds the generic `contains[T comparable](elem T, slice []T)` from
yadsec.go, at `T = string`. -/
def contains (elem : String) : List String → Bool
  | [] => false
  | v :: rest => if elem = v then true else contains elem rest

/-- Splits a character list around every occurrence of `sep`; this is Go's
`strings.Split` (with a one-character separator) on the underlying
characters.  The result always has one more element than the number of
separators, so it is never empty. -/
def splitChar (sep : Char) : List Char → List (List Char)
  | [] => [[]]
  | c :: cs =>
      if c = sep then [] :: splitChar sep cs
      else
        match splitChar sep cs with
        | [] => [[c]]
        | h :: t => (c :: h) :: t

/-- Embeds `strings.Split(s, ",")` as used on struct tags in `load`. -/
def splitCommaS (s : String) : List String :=
  (splitChar ',' s.data).map (fun l => String.mk l)

/-- One path element is acceptable to `fs.ValidPath` when it is nonempty
and neither `"."` nor `".."`. -/
def okElem : List Char → Bool
  | [] => false
  | ['.'] => false
  | ['.', '.'] => false
  | _ => true

/-- Embeds `fs.ValidPath` from the Go standard library: the path is `"."`,
or every slash-separated element is nonempty and neither `"."` nor `".."`.
(Lean strings are always valid unicode, so `utf8.ValidString` is `true`.) -/
def validPath (s : String) : Bool :=
  s == "." || (splitChar '/' s.data).all okElem

/-- Embeds `strings.TrimPrefix(path, "/")`: removes one leading `'/'` when
present, otherwise returns the path unchanged. -/
def trimLeadSlash (s : String) : String :=
  match s.data with
  | '/' :: rest => String.mk rest
  | _ => s

/-- Embeds `unicode.IsSpace`, the character class used by
`strings.TrimSpace`. -/
def isGoSpace (c : Char) : Bool :=
  let n := c.toNat
  n == 9 || n == 10 || n == 11 || n == 12 || n == 13 || n == 32 ||
  n == 133 || n == 160 || n == 0x1680 ||
  (decide (0x2000 ≤ n) && decide (n ≤ 0x200A)) ||
  n == 0x2028 || n == 0x2029 || n == 0x202F || n == 0x205F || n == 0x3000

/-- Embeds `strings.TrimSpace`: drop Go whitespace from both ends. -/
def trimSpace (s : String) : String :=
  String.mk (((s.data.dropWhile isGoSpace).reverse.dropWhile isGoSpace).reverse)

/-- Resolver context: embeds `type Yadsec struct { fs fs.FS; secretsDir string }`. -/
structure Yadsec where
  fs : FS
  secretsDir : String
deriving DecidableEq

/-- Failure modes of `Yadsec.readFile` (the `fmt.Errorf` cases; stat and
read of a regular in-memory file cannot fail, matching `fstest.MapFS`). -/
inductive FileErr
  | invalidPath (p : String)
  | openFailure (p : String)
deriving DecidableEq

/-- Failure modes of `Yadsec.readEnvvar`. -/
inductive EnvErr
  | mutualExclusivity (k f s : String)
  | fileRead (v : String) (e : FileErr)
  | emptyFileContent (v : String)
deriving DecidableEq

/-- Failure modes of `parseEnvvar`. -/
inductive ParseErr
  | invalidInteger (k : String)
  | invalidBoolean (k : String)
  | unsupportedType (k : String)
deriving DecidableEq

/-- Failure modes of `Yadsec.load`. -/
inductive LoadErr
  | readVar (k : String) (e : EnvErr)
  | missingRequired (k : String)
  | parse (e : ParseErr)
deriving DecidableEq

/-- Embeds `Yadsec.readFile`: strip one leading separator, validate, then
open and read the file and trim its content. -/
def readFile (y : Yadsec) (path : String) : Except FileErr String :=
  let p := trimLeadSlash path
  if !(validPath p) then
    Except.error (FileErr.invalidPath p)
  else
    match lookupStr y.fs p with
    | none => Except.error (FileErr.openFailure p)
    | some content => Except.ok (trimSpace content)

/-- The body of the `if isEnvSet(file)` block in `readEnvvar`: read the
file named by the indirection variable, wrap a read failure, and reject an
empty (post-trim) content. -/
def fileValue (y : Yadsec) (file path : String) : Except EnvErr String :=
  match readFile y path with
  | Except.error e => Except.error (EnvErr.fileRead file e)
  | Except.ok value =>
      if value = "" then Except.error (EnvErr.emptyFileContent file)
      else Except.ok value

/-- Embeds `Yadsec.readEnvvar`.  Returns the resolved text (or error)
together with the process environment as it stands after the function and
its deferred `os.Unsetenv` calls return.  The deferred unset of the secret
variable is registered only when the secret branch runs, and the deferred
unset of the file variable only when the file branch runs, exactly as in
the source. -/
def readEnvvar (y : Yadsec) (env : Env) (key : String) :
    Except EnvErr String × Env :=
  let file := fileEnvvar key
  let secret := secretEnvvar key
  if !(mutuallyExclusive [isEnvSet env key, isEnvSet env file, isEnvSet env secret]) then
    (Except.error (EnvErr.mutualExclusivity key file secret), env)
  else if isEnvSet env key then
    (Except.ok (getEnv env key), env)
  else
    let secretSet := isEnvSet env secret
    let env1 :=
      if secretSet then
        let s := getEnv env secret
        let secretName := if s = "" then key else s
        setEnv env file (y.secretsDir ++ secretName)
      else env
    let cleanupSecret := fun (e : Env) => if secretSet then unsetEnv e secret else e
    if isEnvSet env1 file then
      (fileValue y file (getEnv env1 file), cleanupSecret (unsetEnv env1 file))
    else
      (Except.ok "", cleanupSecret env1)

/-- A typed target slot together with its current contents: the three
field kinds `load` supports, plus the catch-all that hits the `default`
branch of `parseEnvvar`. -/
inductive FieldValue
  | vStr (s : String)
  | vInt (n : Int)
  | vBool (b : Bool)
  | vUnsupported
deriving DecidableEq

/-- One struct field as `load` sees it: its `env` tag (empty when the tag
is absent) and the current typed value. -/
structure ConfigField where
  tag : String
  value : FieldValue
deriving DecidableEq

/-- Digit-accumulation loop of `strconv.ParseInt` in base 10: every
character must be a decimal digit. -/
def parseDigitsAux : Nat → List Char → Option Nat
  | acc, [] => some acc
  | acc, c :: cs =>
      if c.isDigit then parseDigitsAux (acc * 10 + (c.toNat - '0'.toNat)) cs
      else none

/-- Embeds `strconv.Atoi` (equivalently `strconv.ParseInt(s, 10, 64)` on a
64-bit platform): optional sign, then a nonempty run of decimal digits,
with a range error outside the signed 64-bit integers. -/
def atoi (s : String) : Option Int :=
  match s.data with
  | [] => none
  | c :: cs =>
      let signDigits : Bool × List Char :=
        if c = '-' then (true, cs)
        else if c = '+' then (false, cs)
        else (false, c :: cs)
      match signDigits with
      | (_, []) => none
      | (neg, digits) =>
          match parseDigitsAux 0 digits with
          | none => none
          | some n =>
              if neg then
                if n ≤ 2 ^ 63 then some (-(n : Int)) else none
              else
                if n < 2 ^ 63 then some ((n : Int)) else none

/-- Embeds `strconv.ParseBool`: the switch accepts exactly twelve literal
strings. -/
def parseBool (s : String) : Option Bool :=
  if s = "1" ∨ s = "t" ∨ s = "T" ∨ s = "true" ∨ s = "TRUE" ∨ s = "True" then
    some true
  else if s = "0" ∨ s = "f" ∨ s = "F" ∨ s = "false" ∨ s = "FALSE" ∨ s = "False" then
    some false
  else none

/-- Embeds `parseEnvvar(fieldVal, envValue, envTag)`: dispatch on the
slot's kind and either write the coerced value or report the coercion
error, keyed by the tag. -/
def parseEnvvar (fieldVal : FieldValue) (envValue envTag : String) :
    Except ParseErr FieldValue :=
  match fieldVal with
  | FieldValue.vStr _ => Except.ok (FieldValue.vStr envValue)
  | FieldValue.vInt _ =>
      match atoi envValue with
      | none => Except.error (ParseErr.invalidInteger envTag)
      | some n => Except.ok (FieldValue.vInt n)
  | FieldValue.vBool _ =>
      match parseBool envValue with
      | none => Except.error (ParseErr.invalidBoolean envTag)
      | some b => Except.ok (FieldValue.vBool b)
  | FieldValue.vUnsupported => Except.error (ParseErr.unsupportedType envTag)

/-- The primary key of a field directive: `keys[0]` after
`strings.Split(rawKey, ",")` (the split result is never empty, so the
default is never used). -/
def primaryKey (tag : String) : String :=
  (splitCommaS tag).headD ""

/-- Embeds `Yadsec.load` over the list of struct fields, threading the
process environment through the per-field calls to `readEnvvar` and
stopping at the first error exactly as the Go loop does.  On success it
returns the updated fields together with the final environment. -/
def loadFields (y : Yadsec) : Env → List ConfigField → Except LoadErr (List ConfigField × Env)
  | env, [] => Except.ok ([], env)
  | env, f :: rest =>
      if f.tag = "" then
        match loadFields y env rest with
        | Except.error e => Except.error e
        | Except.ok (fs1, e1) => Except.ok (f :: fs1, e1)
      else
        let keys := splitCommaS f.tag
        let envKey := keys.headD ""
        match readEnvvar y env envKey with
        | (Except.error e, _) => Except.error (LoadErr.readVar envKey e)
        | (Except.ok v, env1) =>
            if v = "" then
              if contains "required" keys then
                Except.error (LoadErr.missingRequired envKey)
              else
                match loadFields y env1 rest with
                | Except.error e => Except.error e
                | Except.ok (fs1, e1) => Except.ok (f :: fs1, e1)
            else
              match parseEnvvar f.value v envKey with
              | Except.error pe => Except.error (LoadErr.parse pe)
              | Except.ok newVal =>
                  match loadFields y env1 rest with
                  | Except.error e => Except.error e
                  | Except.ok (fs1, e1) =>
                      Except.ok ({ tag := f.tag, value := newVal } :: fs1, e1)

/-- Number of the three candidate variables of `key` that are present in
the environment. -/
def setCount (env : Env) (key : String) : Nat :=
  (if isEnvSet env key then 1 else 0) +
  (if isEnvSet env (fileEnvvar key) then 1 else 0) +
  (if isEnvSet env (secretEnvvar key) then 1 else 0)

/-- Replace the tag of the first field of a successful result; identity on
errors and on an empty field list. -/
def retagHead (t : String) :
    Except LoadErr (List ConfigField × Env) → Except LoadErr (List ConfigField × Env)
  | Except.ok (f :: fs1, e1) => Except.ok ({ tag := t, value := f.value } :: fs1, e1)
  | x => x

deriving instance DecidableEq for Except

/-! ## Basic lemmas about the environment model -/

theorem lookupStr_unsetEnv (e : Env) (k v : String) :
    lookupStr (unsetEnv e k) v = if k = v then none else lookupStr e v := by
  induction e with
  | nil => by_cases h : k = v <;> simp [unsetEnv, lookupStr, h]
  | cons p rest ih =>
      obtain ⟨a, b⟩ := p
      by_cases ha : a = k
      · subst ha
        by_cases h : a = v
        · subst h
          simpa [unsetEnv, lookupStr] using ih
        · simp [unsetEnv, lookupStr, h, ih]
      · by_cases h : a = v
        · subst h
          have : ¬ k = a := fun hh => ha hh.symm
          simp [unsetEnv, lookupStr, ha, this]
        · simp [unsetEnv, lookupStr, ha, h, ih]

theorem lookupStr_append_unset (e : Env) (k val v : String) :
    lookupStr (unsetEnv e k ++ [(k, val)]) v =
      if k = v then some val else lookupStr e v := by
  induction e with
  | nil => by_cases h : k = v <;> simp [unsetEnv, lookupStr, h]
  | cons p rest ih =>
      obtain ⟨a, b⟩ := p
      by_cases ha : a = k
      · subst ha
        by_cases h : a = v
        · subst h
          simpa [unsetEnv, lookupStr] using ih
        · simp [unsetEnv, lookupStr, h, ih]
      · by_cases h : a = v
        · subst h
          have : ¬ k = a := fun hh => ha hh.symm
          simp [unsetEnv, lookupStr, ha, this]
        · simp [unsetEnv, lookupStr, ha, h, ih]

theorem lookupStr_setEnv (e : Env) (k val v : String) :
    lookupStr (setEnv e k val) v = if k = v then some val else lookupStr e v := by
  rw [setEnv]
  exact lookupStr_append_unset e k val v

theorem isEnvSet_setEnv_self (e : Env) (k val : String) :
    isEnvSet (setEnv e k val) k = true := by
  simp [isEnvSet, lookupStr_setEnv]

theorem getEnv_setEnv_self (e : Env) (k val : String) :
    getEnv (setEnv e k val) k = val := by
  simp [getEnv, lookupStr_setEnv]

/-! ## The three candidate variable names are pairwise distinct -/

theorem key_ne_fileEnvvar (key : String) : key ≠ fileEnvvar key := by
  intro h
  have h2 := congrArg String.length h
  rw [fileEnvvar, String.length_append] at h2
  have h3 : ("__FILE" : String).length = 6 := by decide
  omega

theorem key_ne_secretEnvvar (key : String) : key ≠ secretEnvvar key := by
  intro h
  have h2 := congrArg String.length h
  rw [secretEnvvar, String.length_append] at h2
  have h3 : ("__SECRET" : String).length = 8 := by decide
  omega

theorem fileEnvvar_ne_secretEnvvar (key : String) :
    fileEnvvar key ≠ secretEnvvar key := by
  intro h
  have h2 := congrArg String.length h
  rw [fileEnvvar, secretEnvvar, String.length_append, String.length_append] at h2
  have h3 : ("__FILE" : String).length = 6 := by decide
  have h4 : ("__SECRET" : String).length = 8 := by decide
  omega

/-! ## Shape lemmas for `readEnvvar` -/

theorem fileValue_ne_mutualExclusivity (y : Yadsec) (f p k1 f1 s1 : String) :
    fileValue y f p ≠ Except.error (EnvErr.mutualExclusivity k1 f1 s1) := by
  unfold fileValue
  cases h : readFile y p with
  | error e => simp
  | ok v => by_cases hv : v = "" <;> simp [hv]

theorem readEnvvar_direct_mode (y : Yadsec) (env : Env) (key val : String)
    (hk : lookupStr env key = some val)
    (hf : lookupStr env (fileEnvvar key) = none)
    (hs : lookupStr env (secretEnvvar key) = none) :
    readEnvvar y env key = (Except.ok val, env) := by
  unfold readEnvvar
  simp [isEnvSet, getEnv, hk, hf, hs, mutuallyExclusive, mutuallyExclusiveAux]

theorem readEnvvar_absent_mode (y : Yadsec) (env : Env) (key : String)
    (hk : lookupStr env key = none)
    (hf : lookupStr env (fileEnvvar key) = none)
    (hs : lookupStr env (secretEnvvar key) = none) :
    readEnvvar y env key = (Except.ok "", env) := by
  unfold readEnvvar
  simp [isEnvSet, hk, hf, hs, mutuallyExclusive, mutuallyExclusiveAux]

theorem readEnvvar_file_mode (y : Yadsec) (env : Env) (key path : String)
    (hk : lookupStr env key = none)
    (hf : lookupStr env (fileEnvvar key) = some path)
    (hs : lookupStr env (secretEnvvar key) = none) :
    readEnvvar y env key =
      (fileValue y (fileEnvvar key) path, unsetEnv env (fileEnvvar key)) := by
  unfold readEnvvar
  simp [isEnvSet, getEnv, hk, hf, hs, mutuallyExclusive, mutuallyExclusiveAux]

theorem readEnvvar_secret_mode (y : Yadsec) (env : Env) (key s : String)
    (hk : lookupStr env key = none)
    (hf : lookupStr env (fileEnvvar key) = none)
    (hs : lookupStr env (secretEnvvar key) = some s) :
    readEnvvar y env key =
      (fileValue y (fileEnvvar key) (y.secretsDir ++ (if s = "" then key else s)),
       unsetEnv (unsetEnv (setEnv env (fileEnvvar key)
           (y.secretsDir ++ (if s = "" then key else s))) (fileEnvvar key))
         (secretEnvvar key)) := by
  unfold readEnvvar
  simp [isEnvSet, getEnv, hk, hf, hs, mutuallyExclusive, mutuallyExclusiveAux,
    lookupStr_setEnv]

/-- What a single resolution does to any variable other than the key's two
indirection variables: nothing. -/
theorem readEnvvar_lookup_frame (y : Yadsec) (env : Env) (key v : String)
    (hvf : v ≠ fileEnvvar key) (hvs : v ≠ secretEnvvar key) :
    lookupStr (readEnvvar y env key).snd v = lookupStr env v := by
  unfold readEnvvar
  cases hk : isEnvSet env key <;> cases hf : isEnvSet env (fileEnvvar key) <;>
    cases hs : isEnvSet env (secretEnvvar key) <;>
    simp [hk, hf, hs, mutuallyExclusive, mutuallyExclusiveAux, isEnvSet_setEnv_self,
      lookupStr_unsetEnv, lookupStr_setEnv, Ne.symm hvf, Ne.symm hvs]

/-- After a resolution the key's file-indirection variable is either
untouched or removed, never given a fresh value. -/
theorem readEnvvar_file_var_after (y : Yadsec) (env : Env) (key : String) :
    lookupStr (readEnvvar y env key).snd (fileEnvvar key) =
        lookupStr env (fileEnvvar key) ∨
      lookupStr (readEnvvar y env key).snd (fileEnvvar key) = none := by
  unfold readEnvvar
  cases hk : isEnvSet env key <;> cases hf : isEnvSet env (fileEnvvar key) <;>
    cases hs : isEnvSet env (secretEnvvar key) <;>
    simp [hk, hf, hs, mutuallyExclusive, mutuallyExclusiveAux, isEnvSet_setEnv_self,
      lookupStr_unsetEnv, lookupStr_setEnv,
      Ne.symm (fileEnvvar_ne_secretEnvvar key)]

/-- After a resolution the key's secret-indirection variable is either
untouched or removed, never given a fresh value. -/
theorem readEnvvar_secret_var_after (y : Yadsec) (env : Env) (key : String) :
    lookupStr (readEnvvar y env key).snd (secretEnvvar key) =
        lookupStr env (secretEnvvar key) ∨
      lookupStr (readEnvvar y env key).snd (secretEnvvar key) = none := by
  unfold readEnvvar
  cases hk : isEnvSet env key <;> cases hf : isEnvSet env (fileEnvvar key) <;>
    cases hs : isEnvSet env (secretEnvvar key) <;>
    simp [hk, hf, hs, mutuallyExclusive, mutuallyExclusiveAux, isEnvSet_setEnv_self,
      lookupStr_unsetEnv, lookupStr_setEnv, fileEnvvar_ne_secretEnvvar key]

/-! ## Claim theorems -/

/-- C1: resolution of a logical key fails with the MutualExclusivity error
naming `K`, `K__FILE` and `K__SECRET` exactly when two or more of those
three environment variables are present (present even when empty); with at
most one present the mutual-exclusivity check passes and the error cannot
occur. -/
theorem readEnvvar_mutualExclusivity_iff (y : Yadsec) (env : Env) (key : String) :
    (readEnvvar y env key).fst =
        Except.error (EnvErr.mutualExclusivity key (fileEnvvar key) (secretEnvvar key))
      ↔ 2 ≤ setCount env key := by
  unfold readEnvvar setCount
  cases hk : isEnvSet env key <;> cases hf : isEnvSet env (fileEnvvar key) <;>
    cases hs : isEnvSet env (secretEnvvar key) <;>
    simp [hk, hf, hs, mutuallyExclusive, mutuallyExclusiveAux, isEnvSet_setEnv_self,
      fileValue_ne_mutualExclusivity]

/-- C2: with only `K__SECRET` set, holding value `s`, resolution reads the
file `<secretsDir><secretName>` (secret name `s` when nonempty, the key
otherwise) through the resolver's filesystem, and the resolved value is
that file's trimmed content. -/
theorem readEnvvar_secret_resolves_secrets_file (y : Yadsec) (env : Env)
    (key s c : String)
    (hk : lookupStr env key = none)
    (hf : lookupStr env (fileEnvvar key) = none)
    (hs : lookupStr env (secretEnvvar key) = some s)
    (hv : validPath (trimLeadSlash (y.secretsDir ++ (if s = "" then key else s))) = true)
    (hc : lookupStr y.fs (trimLeadSlash (y.secretsDir ++ (if s = "" then key else s)))
        = some c)
    (hne : trimSpace c ≠ "") :
    (readEnvvar y env key).fst = Except.ok (trimSpace c) := by
  rw [readEnvvar_secret_mode y env key s hk hf hs]
  simp [fileValue, readFile, hv, hc, hne]

/-- Witness for C2: with `K__SECRET` empty the resolver reads
`secrets/K`, and with `K__SECRET = "alt"` it reads `secrets/alt`; both
values come back trimmed. -/
theorem readEnvvar_secret_resolves_secrets_file_witness :
    (readEnvvar ⟨[("secrets/K", " hello ")], "secrets/"⟩ [("K__SECRET", "")] "K").fst
        = Except.ok "hello"
    ∧ (readEnvvar ⟨[("secrets/alt", "world")], "secrets/"⟩ [("K__SECRET", "alt")] "K").fst
        = Except.ok "world" := by
  constructor
  · exact (readEnvvar_secret_resolves_secrets_file ⟨[("secrets/K", " hello ")], "secrets/"⟩
      [("K__SECRET", "")] "K" "" " hello " (by rfl) (by rfl) (by rfl) (by decide)
      (by decide) (by decide)).trans (by decide)
  · exact (readEnvvar_secret_resolves_secrets_file ⟨[("secrets/alt", "world")], "secrets/"⟩
      [("K__SECRET", "alt")] "K" "alt" "world" (by rfl) (by rfl) (by rfl) (by decide)
      (by decide) (by decide)).trans (by decide)

/-- C4: after a secret-mode resolution (only `K__SECRET` set) returns,
with a value or with any error, neither `K__SECRET` nor the synthesized
`K__FILE` is present in the environment. -/
theorem readEnvvar_secret_mode_cleanup (y : Yadsec) (env : Env) (key s : String)
    (hk : lookupStr env key = none)
    (hf : lookupStr env (fileEnvvar key) = none)
    (hs : lookupStr env (secretEnvvar key) = some s) :
    lookupStr (readEnvvar y env key).snd (secretEnvvar key) = none
    ∧ lookupStr (readEnvvar y env key).snd (fileEnvvar key) = none := by
  rw [readEnvvar_secret_mode y env key s hk hf hs]
  constructor
  · simp [lookupStr_unsetEnv]
  · simp [lookupStr_unsetEnv, Ne.symm (fileEnvvar_ne_secretEnvvar key)]

/-- Witness for C4: a secret-mode resolution that fails (the secrets file
is missing) still leaves both indirection variables unset. -/
theorem readEnvvar_secret_mode_cleanup_witness :
    lookupStr (readEnvvar ⟨[], "secrets/"⟩ [("K__SECRET", "x")] "K").snd "K__SECRET" = none
    ∧ lookupStr (readEnvvar ⟨[], "secrets/"⟩ [("K__SECRET", "x")] "K").snd "K__FILE" = none := by
  have h := readEnvvar_secret_mode_cleanup ⟨[], "secrets/"⟩ [("K__SECRET", "x")] "K" "x"
    (by rfl) (by rfl) (by rfl)
  exact h

/-- Counterexample to C3: with `K__SECRET` set (to the empty string) and
an empty filesystem, resolving `K` returns with an environment that is not
identical to the one it started from — the caller-set `K__SECRET` has been
removed. -/
theorem readEnvvar_env_not_restored_counterexample :
    (readEnvvar ⟨[], "secrets/"⟩ [("K__SECRET", "")] "K").snd = []
    ∧ (readEnvvar ⟨[], "secrets/"⟩ [("K__SECRET", "")] "K").snd ≠ [("K__SECRET", "")]
    ∧ lookupStr [("K__SECRET", "")] "K__SECRET" = some ""
    ∧ lookupStr (readEnvvar ⟨[], "secrets/"⟩ [("K__SECRET", "")] "K").snd "K__SECRET"
        = none := by
  refine ⟨by decide, by decide, by decide, by decide⟩

/-- C3 as amended: a field's resolution leaves every environment variable
other than the key's `__FILE` and `__SECRET` variables exactly as it found
it, and never gives those two a fresh value — each is either unchanged or
removed.  So apart from the possible disappearance of the key's two
indirection variables (which happens in file and secret mode even when the
caller set them), no state from one field's resolution is observable by
the next. -/
theorem readEnvvar_env_frame_amended (y : Yadsec) (env : Env) (key : String) :
    (∀ v, v ≠ fileEnvvar key → v ≠ secretEnvvar key →
        lookupStr (readEnvvar y env key).snd v = lookupStr env v)
    ∧ (lookupStr (readEnvvar y env key).snd (fileEnvvar key) =
          lookupStr env (fileEnvvar key)
        ∨ lookupStr (readEnvvar y env key).snd (fileEnvvar key) = none)
    ∧ (lookupStr (readEnvvar y env key).snd (secretEnvvar key) =
          lookupStr env (secretEnvvar key)
        ∨ lookupStr (readEnvvar y env key).snd (secretEnvvar key) = none) :=
  ⟨fun v hvf hvs => readEnvvar_lookup_frame y env key v hvf hvs,
   readEnvvar_file_var_after y env key,
   readEnvvar_secret_var_after y env key⟩

/-- Witness for the amended C3: a secret-mode resolution preserves an
unrelated variable. -/
theorem readEnvvar_env_frame_amended_witness :
    lookupStr (readEnvvar ⟨[], "secrets/"⟩ [("OTHER", "o"), ("K__SECRET", "n")] "K").snd
      "OTHER" = some "o" := by
  have h := (readEnvvar_env_frame_amended ⟨[], "secrets/"⟩
    [("OTHER", "o"), ("K__SECRET", "n")] "K").1 "OTHER" (by decide) (by decide)
  exact h.trans (by decide)

/-- C10: the only environment variables one resolution ever writes or
removes are the key's `__FILE` and `__SECRET` variables; direct-mode,
absent-mode and a failed mutual-exclusivity check leave the environment
entirely unchanged, and the direct variable `K` itself is never unset. -/
theorem readEnvvar_env_writes_only_indirection_vars (y : Yadsec) (env : Env)
    (key : String) :
    (∀ v, v ≠ fileEnvvar key → v ≠ secretEnvvar key →
        lookupStr (readEnvvar y env key).snd v = lookupStr env v)
    ∧ (isEnvSet env key = true → (readEnvvar y env key).snd = env)
    ∧ (isEnvSet env key = false → isEnvSet env (fileEnvvar key) = false →
        isEnvSet env (secretEnvvar key) = false → (readEnvvar y env key).snd = env)
    ∧ (mutuallyExclusive [isEnvSet env key, isEnvSet env (fileEnvvar key),
          isEnvSet env (secretEnvvar key)] = false →
        (readEnvvar y env key).snd = env)
    ∧ lookupStr (readEnvvar y env key).snd key = lookupStr env key := by
  refine ⟨fun v hvf hvs => readEnvvar_lookup_frame y env key v hvf hvs, ?_, ?_, ?_, ?_⟩
  · intro hk
    unfold readEnvvar
    simp only [hk]
    split <;> simp
  · intro hk hf hs
    unfold readEnvvar
    simp [hk, hf, hs, mutuallyExclusive, mutuallyExclusiveAux]
  · intro hm
    unfold readEnvvar
    simp [hm]
  · exact readEnvvar_lookup_frame y env key key (key_ne_fileEnvvar key)
      (key_ne_secretEnvvar key)

/-- Witness for C10: a direct-mode resolution returns the raw value and
leaves the environment untouched. -/
theorem readEnvvar_env_writes_only_indirection_vars_witness :
    (readEnvvar ⟨[], "secrets/"⟩ [("K", "v")] "K").snd = [("K", "v")] :=
  (readEnvvar_env_writes_only_indirection_vars ⟨[], "secrets/"⟩ [("K", "v")] "K").2.1
    (by rfl)

/-- C5: a file-indirected read strips exactly one leading path separator
(a path without one is untouched), validates the stripped path, and
rejects any ill-formed path with InvalidPath before consulting the
filesystem at all — the same error comes back whatever files exist. -/
theorem readFile_strips_one_slash_then_validates (fs1 fs2 : FS) (d1 d2 path : String)
    (hbad : validPath (trimLeadSlash path) = false) :
    readFile ⟨fs1, d1⟩ path = Except.error (FileErr.invalidPath (trimLeadSlash path))
    ∧ readFile ⟨fs1, d1⟩ path = readFile ⟨fs2, d2⟩ path
    ∧ (∀ rest, path.data = '/' :: rest → (trimLeadSlash path).data = rest)
    ∧ (path.data.head? ≠ some '/' → trimLeadSlash path = path) := by
  refine ⟨by simp [readFile, hbad], by simp [readFile, hbad], ?_, ?_⟩
  · intro rest h
    unfold trimLeadSlash
    rw [h]
    rfl
  · intro hne
    unfold trimLeadSlash
    split
    · rename_i rest heq
      exact absurd (by rw [heq]; rfl) hne
    · rfl

/-- Witness for C5: `//etc/passwd` is stripped to `/etc/passwd`, which
fails validation, so the read is rejected as InvalidPath even though the
filesystem contains the file. -/
theorem readFile_strips_one_slash_then_validates_witness :
    readFile ⟨[("etc/passwd", "root")], "secrets/"⟩ "//etc/passwd"
        = Except.error (FileErr.invalidPath "/etc/passwd")
    ∧ validPath "/etc/passwd" = false := by
  refine ⟨?_, by decide⟩
  exact (readFile_strips_one_slash_then_validates [("etc/passwd", "root")] []
    "secrets/" "secrets/" "//etc/passwd" (by decide)).1.trans (by decide)

/-- C7: a file-indirected read — whether `K__FILE` was set by the caller
or synthesized from `K__SECRET` — whose file exists but whose content
trims to the empty string fails with EmptyFileContent naming the file
variable, while a key with none of the three variables set resolves to the
non-error absent value. -/
theorem readEnvvar_empty_file_content (y : Yadsec) (envF envS envA : Env)
    (key pathF s c cS : String)
    (hk1 : lookupStr envF key = none)
    (hf1 : lookupStr envF (fileEnvvar key) = some pathF)
    (hs1 : lookupStr envF (secretEnvvar key) = none)
    (hv1 : validPath (trimLeadSlash pathF) = true)
    (hc1 : lookupStr y.fs (trimLeadSlash pathF) = some c)
    (he1 : trimSpace c = "")
    (hk2 : lookupStr envS key = none)
    (hf2 : lookupStr envS (fileEnvvar key) = none)
    (hs2 : lookupStr envS (secretEnvvar key) = some s)
    (hv2 : validPath (trimLeadSlash (y.secretsDir ++ (if s = "" then key else s))) = true)
    (hc2 : lookupStr y.fs (trimLeadSlash (y.secretsDir ++ (if s = "" then key else s)))
        = some cS)
    (he2 : trimSpace cS = "")
    (hk3 : lookupStr envA key = none)
    (hf3 : lookupStr envA (fileEnvvar key) = none)
    (hs3 : lookupStr envA (secretEnvvar key) = none) :
    (readEnvvar y envF key).fst = Except.error (EnvErr.emptyFileContent (fileEnvvar key))
    ∧ (readEnvvar y envS key).fst = Except.error (EnvErr.emptyFileContent (fileEnvvar key))
    ∧ (readEnvvar y envA key).fst = Except.ok "" := by
  refine ⟨?_, ?_, ?_⟩
  · rw [readEnvvar_file_mode y envF key pathF hk1 hf1 hs1]
    simp [fileValue, readFile, hv1, hc1, he1]
  · rw [readEnvvar_secret_mode y envS key s hk2 hf2 hs2]
    simp [fileValue, readFile, hv2, hc2, he2]
  · rw [readEnvvar_absent_mode y envA key hk3 hf3 hs3]

/-- Witness for C7: an all-whitespace file behind `K__FILE`, an empty
secrets file behind `K__SECRET`, and a key with no variables set. -/
theorem readEnvvar_empty_file_content_witness :
    (readEnvvar ⟨[("p", "  "), ("secrets/K", "")], "secrets/"⟩ [("K__FILE", "p")] "K").fst
        = Except.error (EnvErr.emptyFileContent "K__FILE")
    ∧ (readEnvvar ⟨[("p", "  "), ("secrets/K", "")], "secrets/"⟩ [("K__SECRET", "")] "K").fst
        = Except.error (EnvErr.emptyFileContent "K__FILE")
    ∧ (readEnvvar ⟨[("p", "  "), ("secrets/K", "")], "secrets/"⟩ [] "K").fst
        = Except.ok "" := by
  have h := readEnvvar_empty_file_content ⟨[("p", "  "), ("secrets/K", "")], "secrets/"⟩
    [("K__FILE", "p")] [("K__SECRET", "")] [] "K" "p" "" "  " ""
    (by rfl) (by rfl) (by rfl) (by decide) (by decide) (by decide)
    (by rfl) (by rfl) (by rfl) (by decide) (by decide) (by decide)
    (by rfl) (by rfl) (by rfl)
  exact ⟨h.1.trans (by decide), h.2.1.trans (by decide), h.2.2⟩

/-- Counterexample to C8: `"tRue"` is a case-insensitive variant of the
truthy literal `"true"` (lower-casing it gives `"true"`), yet coercion of
a boolean field rejects it with InvalidBoolean instead of accepting it. -/
theorem parseEnvvar_bool_mixed_case_counterexample :
    "tRue".data.map Char.toLower = "true".data
    ∧ parseEnvvar (FieldValue.vBool false) "tRue" "BOL"
        = Except.error (ParseErr.invalidBoolean "BOL") := by
  refine ⟨by decide, by decide⟩

/-- C8 as amended: boolean coercion accepts exactly the twelve literal
forms `1, t, T, true, TRUE, True` (giving true) and
`0, f, F, false, FALSE, False` (giving false); every other input —
including mixed-case variants such as `tRue` — fails with an
InvalidBoolean error naming the key. -/
theorem parseEnvvar_bool_exact_forms (b0 : Bool) (s key : String) :
    parseEnvvar (FieldValue.vBool b0) s key =
      if s ∈ (["1", "t", "T", "true", "TRUE", "True"] : List String) then
        Except.ok (FieldValue.vBool true)
      else if s ∈ (["0", "f", "F", "false", "FALSE", "False"] : List String) then
        Except.ok (FieldValue.vBool false)
      else Except.error (ParseErr.invalidBoolean key) := by
  by_cases h1 : s = "1" ∨ s = "t" ∨ s = "T" ∨ s = "true" ∨ s = "TRUE" ∨ s = "True"
  · simp [parseEnvvar, parseBool, h1]
  · by_cases h2 : s = "0" ∨ s = "f" ∨ s = "F" ∨ s = "false" ∨ s = "FALSE" ∨ s = "False"
    · simp [parseEnvvar, parseBool, h1, h2]
    · have m1 : s ∉ (["1", "t", "T", "true", "TRUE", "True"] : List String) := by
        simp only [List.mem_cons, List.not_mem_nil, or_false]
        exact h1
      have m2 : s ∉ (["0", "f", "F", "false", "FALSE", "False"] : List String) := by
        simp only [List.mem_cons, List.not_mem_nil, or_false]
        exact h2
      simp [parseEnvvar, parseBool, h1, h2, m1, m2]

/-! ## Directive parsing lemmas -/

theorem splitChar_head (sep : Char) (l : List Char) :
    ∃ t, splitChar sep l = (l.takeWhile (fun c => !(c == sep))) :: t := by
  induction l with
  | nil => exact ⟨[], rfl⟩
  | cons c cs ih =>
      by_cases hc : c = sep
      · subst hc
        exact ⟨splitChar c cs, by simp [splitChar]⟩
      · obtain ⟨t, ht⟩ := ih
        exact ⟨t, by simp [splitChar, hc, ht]⟩

theorem primaryKey_eq_takeWhile (t : String) :
    primaryKey t = String.mk (t.data.takeWhile (fun c => !(c == ','))) := by
  obtain ⟨tl, h⟩ := splitChar_head ',' t.data
  simp [primaryKey, splitCommaS, h]

/-- C6: when a field's directive yields an absent resolved text, the pass
fails with MissingRequired naming the primary key if the directive carries
`required`, and otherwise skips the field: the field (and so its prior
value) passes through unchanged and the rest of the pass continues from
the environment `readEnvvar` left behind. -/
theorem loadFields_absent_required_or_skip (y : Yadsec) (env : Env)
    (f : ConfigField) (rest : List ConfigField)
    (htag : f.tag ≠ "")
    (hres : (readEnvvar y env ((splitCommaS f.tag).headD "")).fst = Except.ok "") :
    (contains "required" (splitCommaS f.tag) = true →
      loadFields y env (f :: rest) =
        Except.error (LoadErr.missingRequired ((splitCommaS f.tag).headD "")))
    ∧ (contains "required" (splitCommaS f.tag) = false →
      loadFields y env (f :: rest) =
        match loadFields y (readEnvvar y env ((splitCommaS f.tag).headD "")).snd rest with
        | Except.error e => Except.error e
        | Except.ok (fs1, e1) => Except.ok (f :: fs1, e1)) := by
  rcases hp : readEnvvar y env ((splitCommaS f.tag).headD "") with ⟨r, env1⟩
  rw [hp] at hres
  simp only [Prod.fst] at hres
  subst hres
  have hp2 : readEnvvar y env ((splitCommaS f.tag).head?.getD "")
      = (Except.ok "", env1) := by simpa using hp
  constructor
  · intro hreq
    simp [loadFields, htag, hp2, hreq]
  · intro hreq
    simp [loadFields, htag, hp2, hp, hreq]

/-- Witness for C6: one field with no candidate variables set; without
`required` it passes through unchanged, and the same resolution with
`required` in force fails (shown via the required half on a `required`
directive). -/
theorem loadFields_absent_required_or_skip_witness :
    loadFields ⟨[], "secrets/"⟩ [] [⟨"K", FieldValue.vStr "old"⟩]
        = Except.ok ([⟨"K", FieldValue.vStr "old"⟩], [])
    ∧ loadFields ⟨[], "secrets/"⟩ [] [⟨"K,required", FieldValue.vStr "old"⟩]
        = Except.error (LoadErr.missingRequired "K") := by
  constructor
  · have h := (loadFields_absent_required_or_skip ⟨[], "secrets/"⟩ []
      ⟨"K", FieldValue.vStr "old"⟩ [] (by decide) (by rfl)).2 (by decide)
    exact h.trans (by decide)
  · have h := (loadFields_absent_required_or_skip ⟨[], "secrets/"⟩ []
      ⟨"K,required", FieldValue.vStr "old"⟩ [] (by decide) (by rfl)).1 (by decide)
    exact h.trans (by decide)

/-- Counterexample to C9: for the directive `"required"` the option list
in the claim's sense (the tokens after the first) is empty, and no
candidate variable of the primary key `required` is set, yet the pass
fails with MissingRequired instead of skipping the field — the code tests
`required` against all comma-separated tokens, primary key included. -/
theorem load_required_primary_key_counterexample :
    (splitCommaS "required").tail = []
    ∧ lookupStr ([] : Env) "required" = none
    ∧ loadFields ⟨[], "secrets/"⟩ [] [⟨"required", FieldValue.vStr "x"⟩]
        = Except.error (LoadErr.missingRequired "required")
    ∧ loadFields ⟨[], "secrets/"⟩ [] [⟨"required", FieldValue.vStr "x"⟩]
        ≠ Except.ok ([⟨"required", FieldValue.vStr "x"⟩], []) := by
  refine ⟨by decide, by decide, by decide, by decide⟩

/-- C9 as amended: the primary key is exactly the text before the first
comma, but the field counts as required whenever `required` appears among
all the comma-separated tokens of the directive, the primary key itself
included; beyond the primary key and that membership test the remaining
tokens are inert — two directives with the same primary key and the same
`required`-membership resolve identically (up to the tag recorded on the
resulting field). -/
theorem load_directive_parsing_amended (y : Yadsec) (env : Env) (t1 t2 : String)
    (v : FieldValue) (rest : List ConfigField)
    (h1 : t1 ≠ "") (h2 : t2 ≠ "")
    (hk : primaryKey t1 = primaryKey t2)
    (hr : contains "required" (splitCommaS t1) = contains "required" (splitCommaS t2)) :
    primaryKey t1 = String.mk (t1.data.takeWhile (fun c => !(c == ',')))
    ∧ loadFields y env (⟨t1, v⟩ :: rest)
        = retagHead t1 (loadFields y env (⟨t2, v⟩ :: rest)) := by
  refine ⟨primaryKey_eq_takeWhile t1, ?_⟩
  unfold primaryKey at hk
  have hgd : (splitCommaS t1).head?.getD "" = (splitCommaS t2).head?.getD "" := by
    simpa using hk
  rcases hp : readEnvvar y env ((splitCommaS t1).head?.getD "") with ⟨r, env1⟩
  have hp2 : readEnvvar y env ((splitCommaS t2).head?.getD "") = (r, env1) := by
    rw [← hgd]; exact hp
  cases r with
  | error e => simp [loadFields, h1, h2, hp, hp2, retagHead, hgd]
  | ok v1 =>
      by_cases hv : v1 = ""
      · subst hv
        cases hc : contains "required" (splitCommaS t1) with
        | true =>
            have hc2 : contains "required" (splitCommaS t2) = true := by
              rw [← hr]; exact hc
            simp [loadFields, h1, h2, hp, hp2, hc, hc2, retagHead, hgd]
        | false =>
            have hc2 : contains "required" (splitCommaS t2) = false := by
              rw [← hr]; exact hc
            cases hl : loadFields y env1 rest with
            | error e => simp [loadFields, h1, h2, hp, hp2, hc, hc2, hl, retagHead]
            | ok pr =>
                rcases pr with ⟨fs1, e1⟩
                simp [loadFields, h1, h2, hp, hp2, hc, hc2, hl, retagHead]
      · cases hpe : parseEnvvar v v1 ((splitCommaS t1).head?.getD "") with
        | error pe =>
            have hpe2 : parseEnvvar v v1 ((splitCommaS t2).head?.getD "")
                = Except.error pe := by rw [← hgd]; exact hpe
            simp [loadFields, h1, h2, hp, hp2, hv, hpe, hpe2, retagHead]
        | ok newVal =>
            have hpe2 : parseEnvvar v v1 ((splitCommaS t2).head?.getD "")
                = Except.ok newVal := by rw [← hgd]; exact hpe
            cases hl : loadFields y env1 rest with
            | error e =>
                simp [loadFields, h1, h2, hp, hp2, hv, hpe, hpe2, hl, retagHead]
            | ok pr =>
                rcases pr with ⟨fs1, e1⟩
                simp [loadFields, h1, h2, hp, hp2, hv, hpe, hpe2, hl, retagHead]

/-- Witness for the amended C9: `KEY,extra` behaves exactly like `KEY`
(the unknown token `extra` is inert), and the primary key is the text
before the comma. -/
theorem load_directive_parsing_amended_witness :
    primaryKey "KEY,extra" = "KEY"
    ∧ loadFields ⟨[], "secrets/"⟩ [("KEY", "v")] [⟨"KEY,extra", FieldValue.vStr "a"⟩]
        = Except.ok ([⟨"KEY,extra", FieldValue.vStr "v"⟩], [("KEY", "v")]) := by
  have h := load_directive_parsing_amended ⟨[], "secrets/"⟩ [("KEY", "v")]
    "KEY,extra" "KEY" (FieldValue.vStr "a") [] (by decide) (by decide)
    (by decide) (by decide)
  exact ⟨h.1.trans (by decide), h.2.trans (by decide)⟩
